import Mathlib

/-!
Shallow embedding of the flow-director configuration core of
`drivers/net/txgbe/txgbe_fdir.c` (txgbe PMD).

Machine integers are modelled as `Nat`.  All C variables in this file are
unsigned (`uint8_t`/`uint16_t`/`uint32_t`); the arithmetic performed never
overflows its C type except where an explicit bitwise complement (`~`) of a
32-bit quantity occurs, which is modelled by `NOT32` (xor with `0xFFFFFFFF`).
Fallible functions (C `int` returns with negative errno codes) are modelled
with `Except Int` or by returning the `Int` code alongside the resulting
state.  Hardware registers read inside loops are modelled as oracles
(`Nat → Nat`): the k-th poll of the FDIRCTL register returns `reads k`.
-/

/-- Bitwise complement of a 32-bit value (C `~x` on `uint32_t`). -/
def NOT32 (x : Nat) : Nat := 0xFFFFFFFF ^^^ x

/-- Constant from txgbe_fdir.c line 16: default flexbytes offset in bytes. -/
def TXGBE_DEFAULT_FLEXBYTES_OFFSET : Nat := 12

/-- Constant from txgbe_fdir.c line 17: maximum flex source offset. -/
def TXGBE_MAX_FLX_SOURCE_OFF : Nat := 62

/-- Modelled from the spec: the bounded number of init-done poll iterations
(`TXGBE_FDIR_INIT_DONE_POLL`, defined in `base/txgbe.h`, which is not part of
the sources here; the spec only says the bound is a fixed hardware-defined
constant).  The concrete value does not affect any property proved below. -/
def TXGBE_FDIR_INIT_DONE_POLL : Nat := 10

/-- Modelled from the spec: the init-done status bit of the FDIRCTL register
(`TXGBE_FDIRCTL_INITDONE`, defined in the register header, not in the sources
here).  A single dedicated bit; the concrete position is immaterial. -/
def TXGBE_FDIRCTL_INITDONE : Nat := 0x8

/-- Modelled from the spec: the VM-pool field flag of the field-mask register
(`TXGBE_FDIRMSK_POOL`, register header not in the sources here).  A flag
distinct from the L4 protocol flag. -/
def TXGBE_FDIRMSK_POOL : Nat := 0x4

/-- Modelled from the spec: the L4-protocol substitution flag of the
field-mask register (`TXGBE_FDIRMSK_L4P`, register header not in the sources
here).  A flag distinct from the pool flag. -/
def TXGBE_FDIRMSK_L4P : Nat := 0x8

/-- Modelled from the spec: the flexbytes base-selector field value for a
MAC-relative window (`TXGBE_FDIRFLEXCFG_BASE_MAC`, register header not in the
sources here); occupies the low two bits of the per-slot sub-field. -/
def TXGBE_FDIRFLEXCFG_BASE_MAC : Nat := 0x0

/-- Modelled from the spec: the per-slot ignore bit
(`TXGBE_FDIRFLEXCFG_DIA`, register header not in the sources here); bit 2 of
the 8-bit per-slot sub-field. -/
def TXGBE_FDIRFLEXCFG_DIA : Nat := 0x4

/-- Modelled from the spec: the per-slot offset field encoder
(`TXGBE_FDIRFLEXCFG_OFST(v)`, register header not in the sources here); a
5-bit field at bits 3..7 of the 8-bit per-slot sub-field. -/
def TXGBE_FDIRFLEXCFG_OFST (v : Nat) : Nat := (v &&& 0x1F) <<< 3

/-- Modelled from the spec: the mask covering the per-slot offset field
(`TXGBE_FDIRFLEXCFG_OFST_MASK`, register header not in the sources here). -/
def TXGBE_FDIRFLEXCFG_OFST_MASK : Nat := 0xF8

/-- Modelled from the spec: decoder for the per-slot offset field
(`TXGBD_FDIRFLEXCFG_OFST(r)`, register header not in the sources here). -/
def TXGBD_FDIRFLEXCFG_OFST (r : Nat) : Nat := (r >>> 3) &&& 0x1F

/-- Modelled from the spec: the sub-field placement macro
(`TXGBE_FDIRFLEXCFG_ALL(v, p)`, register header not in the sources here):
each 32-bit FDIRFLEXCFG register packs four 8-bit per-slot sub-fields. -/
def TXGBE_FDIRFLEXCFG_ALL (v p : Nat) : Nat := (v &&& 0xFF) <<< (8 * p)

/-- Modelled from the spec: `rte_fdir_mode` enumerator `RTE_FDIR_MODE_SIGNATURE`
(ethdev header, not in the sources here). -/
def RTE_FDIR_MODE_SIGNATURE : Nat := 1

/-- Modelled from the spec: `rte_fdir_mode` enumerator `RTE_FDIR_MODE_PERFECT`
(ethdev header, not in the sources here). -/
def RTE_FDIR_MODE_PERFECT : Nat := 2

/-- Modelled from the spec: payload-type enumerator `RTE_ETH_RAW_PAYLOAD`
(ethdev header, not in the sources here). -/
def RTE_ETH_RAW_PAYLOAD : Nat := 1

/-- Modelled from the spec: flow-type enumerator `RTE_ETH_FLOW_UNKNOWN`
(ethdev header, not in the sources here); the flow-type-agnostic value 0. -/
def RTE_ETH_FLOW_UNKNOWN : Nat := 0

/-- C errno codes used by the source (negated on return). -/
def EINVAL : Int := 22

/-- C errno code ENOTSUP. -/
def ENOTSUP : Int := 95

/-- C errno code ETIMEDOUT. -/
def ETIMEDOUT : Int := 110

/-- Byte swap of a 16-bit big-endian value into host (little-endian) order
(`rte_be_to_cpu_16`; DPDK runs little-endian on the targets of this driver). -/
def rte_be_to_cpu_16 (x : Nat) : Nat := ((x <<< 8) ||| (x >>> 8)) &&& 0xFFFF

/-- Loop body of the `IPV6_ADDR_TO_MASK` macro (txgbe_fdir.c lines 19-32):
walks the 16 address-mask bytes `a i`, setting compact-mask bit `i` for an
all-ones byte, failing with `-EINVAL` for any byte that is neither 0 nor
0xFF.  `fuel` counts the remaining iterations, `i` is the loop index, `m`
the compact mask accumulated so far. -/
def ipv6AddrToMaskGo (a : Nat → Nat) : Nat → Nat → Nat → Except Int Nat
  | 0, _, m => Except.ok m
  | fuel + 1, i, m =>
    if a i = 255 then ipv6AddrToMaskGo a fuel (i + 1) (m ||| (1 <<< i))
    else if a i ≠ 0 then Except.error (-EINVAL)
    else ipv6AddrToMaskGo a fuel (i + 1) m

/-- The `IPV6_ADDR_TO_MASK` macro (txgbe_fdir.c lines 19-32): encodes a
16-byte IPv6 address mask (byte `i` given by `a i`) into a 16-bit compact
mask, or fails with `-EINVAL`. -/
def IPV6_ADDR_TO_MASK (a : Nat → Nat) : Except Int Nat :=
  ipv6AddrToMaskGo a 16 0 0

/-- The `IPV6_MASK_TO_ADDR` macro (txgbe_fdir.c lines 34-44): decodes a
compact mask back into the 16 address bytes; byte `i` (for `i < 16`) is 0xFF
when bit `i` of the compact mask is set, else 0. -/
def IPV6_MASK_TO_ADDR (m : Nat) (i : Nat) : Nat :=
  if m &&& (1 <<< i) ≠ 0 then 255 else 0

/-- First parallel swap of `reverse_fdir_bmks` (txgbe_fdir.c line 172):
exchanges adjacent bits. -/
def bitrev_swap1 (mask : Nat) : Nat :=
  ((mask &&& 0x55555555) <<< 1) ||| ((mask &&& 0xAAAAAAAA) >>> 1)

/-- Second parallel swap of `reverse_fdir_bmks` (txgbe_fdir.c line 173):
exchanges adjacent 2-bit groups. -/
def bitrev_swap2 (mask : Nat) : Nat :=
  ((mask &&& 0x33333333) <<< 2) ||| ((mask &&& 0xCCCCCCCC) >>> 2)

/-- Third parallel swap of `reverse_fdir_bmks` (txgbe_fdir.c line 174):
exchanges adjacent 4-bit groups. -/
def bitrev_swap4 (mask : Nat) : Nat :=
  ((mask &&& 0x0F0F0F0F) <<< 4) ||| ((mask &&& 0xF0F0F0F0) >>> 4)

/-- Fourth parallel swap of `reverse_fdir_bmks` (txgbe_fdir.c line 175):
exchanges adjacent bytes. -/
def bitrev_swap8 (mask : Nat) : Nat :=
  ((mask &&& 0x00FF00FF) <<< 8) ||| ((mask &&& 0xFF00FF00) >>> 8)

/-- The bit-reversal step of `reverse_fdir_bmks` (txgbe_fdir.c lines 172-175):
the four parallel swaps applied in source order. -/
def revStep (mask : Nat) : Nat :=
  bitrev_swap8 (bitrev_swap4 (bitrev_swap2 (bitrev_swap1 mask)))

/-- `reverse_fdir_bmks` (txgbe_fdir.c lines 166-176): concatenates the two
16-bit port masks (`hi_dword` in the high half) and applies the parallel-swap
bit-reversal step.  The `&&& 0xFFFF` reflects the `uint16_t` parameter types. -/
def reverse_fdir_bmks (hi_dword lo_dword : Nat) : Nat :=
  revStep (((hi_dword &&& 0xFFFF) <<< 16) ||| (lo_dword &&& 0xFFFF))

/-- The `struct txgbe_hw_fdir_mask` fields manipulated by this file
(declared in txgbe_ethdev.h, modelled from its uses here): the driver's
persisted view of the programmed masks (DeviceMaskState). -/
structure txgbe_hw_fdir_mask where
  vlan_tci_mask : Nat
  src_ipv4_mask : Nat
  dst_ipv4_mask : Nat
  src_ipv6_mask : Nat
  dst_ipv6_mask : Nat
  src_port_mask : Nat
  dst_port_mask : Nat
  flex_bytes_mask : Nat
deriving DecidableEq, Repr

/-- The `struct rte_eth_fdir_masks` input fields used by
`txgbe_fdir_store_input_mask` (ethdev header, modelled from its uses here).
The two IPv6 address masks are byte arrays, modelled as byte functions. -/
structure rte_eth_fdir_masks where
  vlan_tci_mask : Nat
  ipv4_src_ip : Nat
  ipv4_dst_ip : Nat
  ipv6_src_ip : Nat → Nat
  ipv6_dst_ip : Nat → Nat
  src_port_mask : Nat
  dst_port_mask : Nat

/-- Modelled from the spec: IPv6 sub-field placement
`TXGBE_FDIRIP6MSK_DST(v)` (register header not in the sources here):
destination compact mask in the high 16 bits. -/
def TXGBE_FDIRIP6MSK_DST (v : Nat) : Nat := (v &&& 0xFFFF) <<< 16

/-- Modelled from the spec: IPv6 sub-field placement
`TXGBE_FDIRIP6MSK_SRC(v)` (register header not in the sources here):
source compact mask in the low 16 bits. -/
def TXGBE_FDIRIP6MSK_SRC (v : Nat) : Nat := v &&& 0xFFFF

/-- Register values produced by a successful `txgbe_fdir_set_input_mask`
pass: the value written to each mask register (txgbe_fdir.c lines 178-240).
`fdirip6msk_wr` is `none` outside Signature mode (no IPv6 register write). -/
structure InputMaskWrites where
  fdirm : Nat
  fdirtcpm_wr : Nat
  fdirudpm_wr : Nat
  fdirsctpm_wr : Nat
  fdirsip4msk_wr : Nat
  fdirdip4msk_wr : Nat
  fdirip6msk_wr : Option Nat
deriving DecidableEq, Repr

/-- `txgbe_fdir_set_input_mask` (txgbe_fdir.c lines 178-240): derives the
mask register writes from the stored mask state.  Fails with `-ENOTSUP` for
a mode other than Signature/Perfect; otherwise performs the writes modelled
by `InputMaskWrites` and returns 0. -/
def txgbe_fdir_set_input_mask (mode : Nat) (mask : txgbe_hw_fdir_mask) :
    Except Int InputMaskWrites :=
  if mode ≠ RTE_FDIR_MODE_SIGNATURE ∧ mode ≠ RTE_FDIR_MODE_PERFECT then
    Except.error (-ENOTSUP)
  else
    let fdirm := TXGBE_FDIRMSK_POOL
    let fdirm :=
      if mask.dst_port_mask = 0 ∧ mask.src_port_mask = 0 then
        fdirm ||| TXGBE_FDIRMSK_L4P
      else fdirm
    let fdirtcpm := reverse_fdir_bmks (rte_be_to_cpu_16 mask.dst_port_mask)
        (rte_be_to_cpu_16 mask.src_port_mask)
    Except.ok
      { fdirm := fdirm
        fdirtcpm_wr := NOT32 fdirtcpm
        fdirudpm_wr := NOT32 fdirtcpm
        fdirsctpm_wr := NOT32 fdirtcpm
        fdirsip4msk_wr := NOT32 mask.src_ipv4_mask
        fdirdip4msk_wr := NOT32 mask.dst_ipv4_mask
        fdirip6msk_wr :=
          if mode = RTE_FDIR_MODE_SIGNATURE then
            some (NOT32 (TXGBE_FDIRIP6MSK_DST mask.dst_ipv6_mask |||
              TXGBE_FDIRIP6MSK_SRC mask.src_ipv6_mask))
          else none }

/-- `txgbe_fdir_store_input_mask` (txgbe_fdir.c lines 242-270): validates
and stores the user mask set into `info->mask`.  Returns the C return code
together with the resulting `info->mask`.  Mirrors the source order: the mode
check leaves the state untouched; then the whole mask struct is `memset` to
zero and the scalar fields assigned; the two `IPV6_ADDR_TO_MASK` macro
invocations may `return -EINVAL` after that, leaving the partial state; on
success the two compact IPv6 masks are stored as well. -/
def txgbe_fdir_store_input_mask (mode : Nat) (input : rte_eth_fdir_masks)
    (info_mask : txgbe_hw_fdir_mask) : Int × txgbe_hw_fdir_mask :=
  if mode ≠ RTE_FDIR_MODE_SIGNATURE ∧ mode ≠ RTE_FDIR_MODE_PERFECT then
    (-ENOTSUP, info_mask)
  else
    let m : txgbe_hw_fdir_mask :=
      { vlan_tci_mask := input.vlan_tci_mask
        src_ipv4_mask := input.ipv4_src_ip
        dst_ipv4_mask := input.ipv4_dst_ip
        src_ipv6_mask := 0
        dst_ipv6_mask := 0
        src_port_mask := input.src_port_mask
        dst_port_mask := input.dst_port_mask
        flex_bytes_mask := 0 }
    match IPV6_ADDR_TO_MASK input.ipv6_src_ip with
    | Except.error e => (e, m)
    | Except.ok src_ipv6m =>
      match IPV6_ADDR_TO_MASK input.ipv6_dst_ip with
      | Except.error e => (e, m)
      | Except.ok dst_ipv6m =>
        (0, { m with src_ipv6_mask := src_ipv6m, dst_ipv6_mask := dst_ipv6m })

/-- The init-done poll loop shared by `txgbe_fdir_enable` (txgbe_fdir.c
lines 85-89) and `txgbe_fdir_set_flexbytes_offset` (lines 290-295): polls the
FDIRCTL register (`reads k` is the k-th read), breaking as soon as the
init-done bit is observed; returns the final value of the loop index `i`. -/
def fdirPollInitDone (reads : Nat → Nat) : Nat → Nat → Nat
  | 0, i => i
  | fuel + 1, i =>
    if reads i &&& TXGBE_FDIRCTL_INITDONE ≠ 0 then i
    else fdirPollInitDone reads fuel (i + 1)

/-- `txgbe_fdir_enable` (txgbe_fdir.c lines 51-96): primes the hash keys,
merges fixed bucket-length/threshold bits into `fdirctrl`, writes FDIRCTL,
then polls the init-done bit up to `TXGBE_FDIR_INIT_DONE_POLL` times.
Returns the C return code (`-ETIMEDOUT` when the loop exhausts, else 0)
together with the number of FDIRCTL poll reads performed.  The key/ctl
register writes carry no information needed by the properties below and are
not recorded. -/
def txgbe_fdir_enable (reads : Nat → Nat) (fdirctrl : Nat) : Int × Nat :=
  let i := fdirPollInitDone reads TXGBE_FDIR_INIT_DONE_POLL 0
  (if TXGBE_FDIR_INIT_DONE_POLL ≤ i then -ETIMEDOUT else 0,
   if i < TXGBE_FDIR_INIT_DONE_POLL then i + 1 else TXGBE_FDIR_INIT_DONE_POLL)

/-- Extraction of the 8-bit per-slot sub-field `p` (0..3) of a 32-bit
FDIRFLEXCFG register value (reading side of the packing described by
`TXGBE_FDIRFLEXCFG_ALL`). -/
def flexSubfield (w p : Nat) : Nat := (w >>> (8 * p)) &&& 0xFF

/-- One read-modify-write of slot sub-field `p` of a FDIRFLEXCFG register
(txgbe_fdir.c lines 284-285 and 363-364): clear the sub-field with
`~TXGBE_FDIRFLEXCFG_ALL(~0UL, p)` (32-bit complement), then or in
`TXGBE_FDIRFLEXCFG_ALL(flex, p)`. -/
def flexcfgWriteSlot (flexreg flex p : Nat) : Nat :=
  (flexreg &&& NOT32 (TXGBE_FDIRFLEXCFG_ALL 0xFFFFFFFFFFFFFFFF p)) |||
    TXGBE_FDIRFLEXCFG_ALL flex p

/-- The 64-iteration loop writing the per-slot flex configuration
(txgbe_fdir.c lines 279-287 and 360-366): for each slot `i`, read register
`i / 4`, rewrite sub-field `i % 4` with `flex`, write back.  `regs` maps a
FDIRFLEXCFG register index to its current value. -/
def flexApplyLoop (flex : Nat) : Nat → Nat → (Nat → Nat) → (Nat → Nat)
  | 0, _, regs => regs
  | fuel + 1, i, regs =>
    let flexreg := regs (i / 4)
    let flexreg := flexcfgWriteSlot flexreg flex (i % 4)
    flexApplyLoop flex fuel (i + 1) (fun r => if r = i / 4 then flexreg else regs r)

/-- Result of `txgbe_fdir_set_flexbytes_offset`: the C return code, the final
FDIRFLEXCFG register bank, and the number of FDIRCTL poll reads performed. -/
structure FlexOffsetResult where
  ret : Int
  regs : Nat → Nat
  ctl_polls : Nat

/-- `txgbe_fdir_set_flexbytes_offset` (txgbe_fdir.c lines 272-297): rewrites
all 64 flex slots with a window at `offset`, then polls the init-done bit up
to `TXGBE_FDIR_INIT_DONE_POLL` times; the poll outcome is ignored and the
function returns 0 unconditionally.  (The per-iteration `flex` computation of
the source is loop-invariant and hoisted here.) -/
def txgbe_fdir_set_flexbytes_offset (ctl_reads : Nat → Nat) (regs : Nat → Nat)
    (offset : Nat) : FlexOffsetResult :=
  let flex := TXGBE_FDIRFLEXCFG_BASE_MAC ||| TXGBE_FDIRFLEXCFG_OFST (offset / 2)
  let regs := flexApplyLoop flex 64 0 regs
  let i := fdirPollInitDone ctl_reads TXGBE_FDIR_INIT_DONE_POLL 0
  { ret := 0
    regs := regs
    ctl_polls :=
      if i < TXGBE_FDIR_INIT_DONE_POLL then i + 1 else TXGBE_FDIR_INIT_DONE_POLL }

/-- The `struct rte_eth_flex_payload_cfg` fields used by
`txgbe_set_fdir_flex_conf` (ethdev header, modelled from its uses here);
`src_offset0`/`src_offset1` are `src_offset[0]`/`src_offset[1]`. -/
structure rte_eth_flex_payload_cfg where
  type : Nat
  src_offset0 : Nat
  src_offset1 : Nat
deriving DecidableEq, Repr

/-- The `struct rte_eth_fdir_flex_mask` fields used by
`txgbe_set_fdir_flex_conf` (ethdev header, modelled from its uses here);
`mask0`/`mask1` are `mask[0]`/`mask[1]`. -/
structure rte_eth_fdir_flex_mask where
  flow_type : Nat
  mask0 : Nat
  mask1 : Nat
deriving DecidableEq, Repr

/-- The `struct rte_eth_fdir_flex_conf` fields used by
`txgbe_set_fdir_flex_conf`: `flex_set` with `nb_payloads = flex_set.length`
and `flex_mask` with `nb_flexmasks = flex_mask.length`. -/
structure rte_eth_fdir_flex_conf where
  flex_set : List rte_eth_flex_payload_cfg
  flex_mask : List rte_eth_fdir_flex_mask
deriving DecidableEq, Repr

/-- Individual validity of one payload-window descriptor, exactly the
acceptance condition of txgbe_fdir.c lines 324-330: RAW payload type, even
base offset, second offset one past the first, base offset within
`TXGBE_MAX_FLX_SOURCE_OFF`. -/
def flexPayloadValid (c : rte_eth_flex_payload_cfg) : Prop :=
  c.type = RTE_ETH_RAW_PAYLOAD ∧ c.src_offset0 &&& 0x1 = 0 ∧
    c.src_offset1 = c.src_offset0 + 1 ∧ c.src_offset0 ≤ TXGBE_MAX_FLX_SOURCE_OFF

instance (c : rte_eth_flex_payload_cfg) : Decidable (flexPayloadValid c) := by
  unfold flexPayloadValid; infer_instance

/-- The payload-descriptor loop of `txgbe_set_fdir_flex_conf`
(txgbe_fdir.c lines 322-338): each descriptor must be of RAW payload type
with an even base offset, a second offset one past the first, and a base
offset within `TXGBE_MAX_FLX_SOURCE_OFF`; a valid descriptor rewrites the
offset field of `flex`, an invalid one fails with `-EINVAL`. -/
def flexPayloadLoop : List rte_eth_flex_payload_cfg → Nat → Except Int Nat
  | [], flex => Except.ok flex
  | c :: rest, flex =>
    if c.type ≠ RTE_ETH_RAW_PAYLOAD then Except.error (-EINVAL)
    else if c.src_offset0 &&& 0x1 = 0 ∧ c.src_offset1 = c.src_offset0 + 1 ∧
        c.src_offset0 ≤ TXGBE_MAX_FLX_SOURCE_OFF then
      flexPayloadLoop rest
        ((flex &&& NOT32 TXGBE_FDIRFLEXCFG_OFST_MASK) |||
          TXGBE_FDIRFLEXCFG_OFST (c.src_offset0 / 2))
    else Except.error (-EINVAL)

/-- The flex-mask-descriptor loop of `txgbe_set_fdir_flex_conf`
(txgbe_fdir.c lines 340-355): only flow-type-agnostic descriptors are
accepted; a mask decoding to 0xFFFF clears the ignore bit, a mask decoding
to 0 is a no-op, anything else fails with `-EINVAL`.  Returns the final
`flex` value together with the last computed `flexbytes`. -/
def flexMaskLoop : List rte_eth_fdir_flex_mask → Nat → Nat → Except Int (Nat × Nat)
  | [], flex, flexbytes => Except.ok (flex, flexbytes)
  | fm :: rest, flex, _ =>
    if fm.flow_type ≠ RTE_ETH_FLOW_UNKNOWN then Except.error (-EINVAL)
    else
      let flexbytes := ((fm.mask1 <<< 8) &&& 0xFF00) ||| (fm.mask0 &&& 0xFF)
      if flexbytes = 0xFFFF then
        flexMaskLoop rest (flex &&& NOT32 TXGBE_FDIRFLEXCFG_DIA) flexbytes
      else if flexbytes ≠ 0 then Except.error (-EINVAL)
      else flexMaskLoop rest flex flexbytes

/-- The state produced by `txgbe_set_fdir_flex_conf`:
`info->mask.flex_bytes_mask`, `info->flex_bytes_offset`, and the FDIRFLEXCFG
register bank. -/
structure FlexConfState where
  flex_bytes_mask : Nat
  flex_bytes_offset : Nat
  regs : Nat → Nat

/-- `txgbe_set_fdir_flex_conf` (txgbe_fdir.c lines 303-368): sets the ignore
bit in `flex`, runs the payload-descriptor and mask-descriptor loops, stores
the resolved flex-byte mask and offset into the fdir info, and broadcasts
`flex` into all 64 classification-profile slots.  Returns the C return code
together with the resulting state (`st0` untouched on failure).  The C NULL
check on `conf` cannot fire in this embedding (`conf` is a value). -/
def txgbe_set_fdir_flex_conf (conf : rte_eth_fdir_flex_conf) (flex0 : Nat)
    (st0 : FlexConfState) : Int × FlexConfState :=
  let flex := flex0 ||| TXGBE_FDIRFLEXCFG_DIA
  match flexPayloadLoop conf.flex_set flex with
  | Except.error e => (e, st0)
  | Except.ok flex =>
    match flexMaskLoop conf.flex_mask flex 0 with
    | Except.error e => (e, st0)
    | Except.ok (flex, flexbytes) =>
      (0, { flex_bytes_mask := if flexbytes ≠ 0 then 0xFFFF else 0
            flex_bytes_offset := (TXGBD_FDIRFLEXCFG_OFST flex * 2) &&& 0xFF
            regs := flexApplyLoop flex 64 0 st0.regs })

/-! ### Bit-level helper lemmas -/

theorem bitrev_swap1_lt (x : Nat) : bitrev_swap1 x < 2 ^ 32 := by
  apply Nat.or_lt_two_pow
  · rw [Nat.shiftLeft_eq]
    exact lt_of_le_of_lt (Nat.mul_le_mul_right _ Nat.and_le_right) (by norm_num)
  · rw [Nat.shiftRight_eq_div_pow]
    exact lt_of_le_of_lt (Nat.div_le_div_right Nat.and_le_right) (by norm_num)

theorem bitrev_swap2_lt (x : Nat) : bitrev_swap2 x < 2 ^ 32 := by
  apply Nat.or_lt_two_pow
  · rw [Nat.shiftLeft_eq]
    exact lt_of_le_of_lt (Nat.mul_le_mul_right _ Nat.and_le_right) (by norm_num)
  · rw [Nat.shiftRight_eq_div_pow]
    exact lt_of_le_of_lt (Nat.div_le_div_right Nat.and_le_right) (by norm_num)

theorem bitrev_swap4_lt (x : Nat) : bitrev_swap4 x < 2 ^ 32 := by
  apply Nat.or_lt_two_pow
  · rw [Nat.shiftLeft_eq]
    exact lt_of_le_of_lt (Nat.mul_le_mul_right _ Nat.and_le_right) (by norm_num)
  · rw [Nat.shiftRight_eq_div_pow]
    exact lt_of_le_of_lt (Nat.div_le_div_right Nat.and_le_right) (by norm_num)

theorem bitrev_swap8_lt (x : Nat) : bitrev_swap8 x < 2 ^ 32 := by
  apply Nat.or_lt_two_pow
  · rw [Nat.shiftLeft_eq]
    exact lt_of_le_of_lt (Nat.mul_le_mul_right _ Nat.and_le_right) (by norm_num)
  · rw [Nat.shiftRight_eq_div_pow]
    exact lt_of_le_of_lt (Nat.div_le_div_right Nat.and_le_right) (by norm_num)

theorem revStep_lt (x : Nat) : revStep x < 2 ^ 32 := bitrev_swap8_lt _

theorem bitrev_swap1_testBit (x j : Nat) (hj : j < 32) :
    (bitrev_swap1 x).testBit j = x.testBit (j ^^^ 1) := by
  interval_cases j <;>
    simp only [bitrev_swap1, Nat.testBit_or, Nat.testBit_and, Nat.testBit_shiftLeft,
      Nat.testBit_shiftRight] <;>
    simp [Nat.testBit_to_div_mod]

theorem bitrev_swap2_testBit (x j : Nat) (hj : j < 32) :
    (bitrev_swap2 x).testBit j = x.testBit (j ^^^ 2) := by
  interval_cases j <;>
    simp only [bitrev_swap2, Nat.testBit_or, Nat.testBit_and, Nat.testBit_shiftLeft,
      Nat.testBit_shiftRight] <;>
    simp [Nat.testBit_to_div_mod]

theorem bitrev_swap4_testBit (x j : Nat) (hj : j < 32) :
    (bitrev_swap4 x).testBit j = x.testBit (j ^^^ 4) := by
  interval_cases j <;>
    simp only [bitrev_swap4, Nat.testBit_or, Nat.testBit_and, Nat.testBit_shiftLeft,
      Nat.testBit_shiftRight] <;>
    simp [Nat.testBit_to_div_mod]

theorem bitrev_swap8_testBit (x j : Nat) (hj : j < 32) :
    (bitrev_swap8 x).testBit j = x.testBit (j ^^^ 8) := by
  interval_cases j <;>
    simp only [bitrev_swap8, Nat.testBit_or, Nat.testBit_and, Nat.testBit_shiftLeft,
      Nat.testBit_shiftRight] <;>
    simp [Nat.testBit_to_div_mod]

theorem revStep_testBit (x j : Nat) (hj : j < 32) :
    (revStep x).testBit j = x.testBit (j ^^^ 15) := by
  have h8 : j ^^^ 8 < 32 := Nat.xor_lt_two_pow (n := 5) hj (by norm_num)
  have h4 : j ^^^ 8 ^^^ 4 < 32 := Nat.xor_lt_two_pow (n := 5) h8 (by norm_num)
  have h2 : j ^^^ 8 ^^^ 4 ^^^ 2 < 32 := Nat.xor_lt_two_pow (n := 5) h4 (by norm_num)
  rw [revStep, bitrev_swap8_testBit _ _ hj, bitrev_swap4_testBit _ _ h8,
    bitrev_swap2_testBit _ _ h4, bitrev_swap1_testBit _ _ h2]
  congr 1
  rw [Nat.xor_assoc, Nat.xor_assoc, Nat.xor_assoc]
  congr 1

theorem testBit_ge32_of_lt (x j : Nat) (hx : x < 2 ^ 32) (hj : 32 ≤ j) :
    x.testBit j = false :=
  Nat.testBit_lt_two_pow (lt_of_lt_of_le hx (Nat.pow_le_pow_right (by norm_num) hj))

theorem revStep_involution_aux (m : Nat) (hm : m < 2 ^ 32) :
    revStep (revStep m) = m := by
  apply Nat.eq_of_testBit_eq
  intro j
  by_cases hj : j < 32
  · have h15 : j ^^^ 15 < 32 := Nat.xor_lt_two_pow (n := 5) hj (by norm_num)
    rw [revStep_testBit _ _ hj, revStep_testBit _ _ h15, Nat.xor_assoc]
    norm_num
  · rw [testBit_ge32_of_lt _ _ (revStep_lt _) (le_of_not_lt hj),
      testBit_ge32_of_lt _ _ hm (le_of_not_lt hj)]

/-! ### Poll-loop helper lemmas -/

theorem fdirPollInitDone_le (reads : Nat → Nat) :
    ∀ fuel i, fdirPollInitDone reads fuel i ≤ i + fuel := by
  intro fuel
  induction fuel with
  | zero => intro i; simp [fdirPollInitDone]
  | succ n ih =>
    intro i
    rw [fdirPollInitDone]
    split
    · omega
    · have := ih (i + 1); omega

theorem fdirPollInitDone_all_clear (reads : Nat → Nat) :
    ∀ fuel i, (∀ k, i ≤ k → k < i + fuel → reads k &&& TXGBE_FDIRCTL_INITDONE = 0) →
      fdirPollInitDone reads fuel i = i + fuel := by
  intro fuel
  induction fuel with
  | zero => intro i _; simp [fdirPollInitDone]
  | succ n ih =>
    intro i h
    rw [fdirPollInitDone]
    split
    · exact absurd (h i le_rfl (by omega)) (by assumption)
    · have := ih (i + 1) (fun k hk hk2 => h k (by omega) (by omega))
      omega

theorem fdirPollInitDone_found (reads : Nat → Nat) :
    ∀ fuel i k, i ≤ k → k < i + fuel →
      (∀ j, i ≤ j → j < k → reads j &&& TXGBE_FDIRCTL_INITDONE = 0) →
      reads k &&& TXGBE_FDIRCTL_INITDONE ≠ 0 →
      fdirPollInitDone reads fuel i = k := by
  intro fuel
  induction fuel with
  | zero => intro i k h1 h2; omega
  | succ n ih =>
    intro i k h1 h2 hclear hset
    rw [fdirPollInitDone]
    rcases Nat.eq_or_lt_of_le h1 with heq | hlt
    · subst heq; simp [hset]
    · have hi : reads i &&& TXGBE_FDIRCTL_INITDONE = 0 := hclear i le_rfl hlt
      simp only [hi]
      simp only [ne_eq, not_true_eq_false, if_false]
      exact ih (i + 1) k hlt (by omega) (fun j hj hj2 => hclear j (by omega) hj2) hset

theorem fdirPollInitDone_exhaust_iff (reads : Nat → Nat) :
    ∀ fuel i, fdirPollInitDone reads fuel i = i + fuel ↔
      ∀ k, i ≤ k → k < i + fuel → reads k &&& TXGBE_FDIRCTL_INITDONE = 0 := by
  intro fuel
  induction fuel with
  | zero =>
    intro i
    simp [fdirPollInitDone]
    omega
  | succ n ih =>
    intro i
    rw [fdirPollInitDone]
    split
    · constructor
      · intro h; omega
      · intro h
        exact absurd (h i le_rfl (by omega)) (by assumption)
    · have hclear : reads i &&& TXGBE_FDIRCTL_INITDONE = 0 := by
        by_contra hc
        exact absurd hc (by assumption)
      constructor
      · intro h k hk1 hk2
        rcases Nat.eq_or_lt_of_le hk1 with heq | hlt
        · exact heq ▸ hclear
        · exact ((ih (i + 1)).mp (by omega)) k hlt (by omega)
      · intro h
        have := ((ih (i + 1)).mpr (fun k hk1 hk2 => h k (by omega) (by omega)))
        omega

/-! ### FDIRFLEXCFG sub-field packing lemmas -/

theorem flexSubfield_lt (w p : Nat) : flexSubfield w p < 2 ^ 8 :=
  lt_of_le_of_lt Nat.and_le_right (by norm_num)

theorem flexSubfield_testBit_ge8 (w p j : Nat) (hj : 8 ≤ j) :
    (flexSubfield w p).testBit j = false :=
  Nat.testBit_lt_two_pow
    (lt_of_lt_of_le (flexSubfield_lt w p) (Nat.pow_le_pow_right (by norm_num) hj))

theorem and_ff_testBit_ge8 (f j : Nat) (hj : 8 ≤ j) :
    (f &&& 0xFF).testBit j = false :=
  Nat.testBit_lt_two_pow
    (lt_of_lt_of_le (lt_of_le_of_lt Nat.and_le_right (by norm_num))
      (Nat.pow_le_pow_right (by norm_num) hj))

theorem flexSubfield_writeSlot_same (w f p : Nat) (hp : p < 4) :
    flexSubfield (flexcfgWriteSlot w f p) p = f &&& 0xFF := by
  apply Nat.eq_of_testBit_eq
  intro j
  by_cases hj : j < 8
  · interval_cases p <;> interval_cases j <;>
      simp only [flexSubfield, flexcfgWriteSlot, TXGBE_FDIRFLEXCFG_ALL, NOT32,
        Nat.testBit_or, Nat.testBit_and, Nat.testBit_xor, Nat.testBit_shiftLeft,
        Nat.testBit_shiftRight] <;>
      simp [Nat.testBit_to_div_mod]
  · rw [flexSubfield_testBit_ge8 _ _ _ (le_of_not_lt hj),
      and_ff_testBit_ge8 _ _ (le_of_not_lt hj)]

theorem flexSubfield_writeSlot_other (w f p q : Nat) (hp : p < 4) (hq : q < 4)
    (hne : p ≠ q) :
    flexSubfield (flexcfgWriteSlot w f p) q = flexSubfield w q := by
  apply Nat.eq_of_testBit_eq
  intro j
  by_cases hj : j < 8
  · interval_cases p <;> interval_cases q <;>
      first
      | omega
      | (interval_cases j <;>
          simp only [flexSubfield, flexcfgWriteSlot, TXGBE_FDIRFLEXCFG_ALL, NOT32,
            Nat.testBit_or, Nat.testBit_and, Nat.testBit_xor, Nat.testBit_shiftLeft,
            Nat.testBit_shiftRight] <;>
          simp [Nat.testBit_to_div_mod])
  · rw [flexSubfield_testBit_ge8 _ _ _ (le_of_not_lt hj),
      flexSubfield_testBit_ge8 _ _ _ (le_of_not_lt hj)]

theorem flexApplyLoop_preserve (flexv : Nat) :
    ∀ fuel i regs s, s < i →
      flexSubfield ((flexApplyLoop flexv fuel i regs) (s / 4)) (s % 4) =
        flexSubfield (regs (s / 4)) (s % 4) := by
  intro fuel
  induction fuel with
  | zero => intro i regs s _; rfl
  | succ n ih =>
    intro i regs s hs
    rw [flexApplyLoop]
    rw [ih (i + 1) _ s (by omega)]
    by_cases hreg : s / 4 = i / 4
    · rw [hreg]
      simp only [if_pos rfl]
      rw [← hreg]
      exact flexSubfield_writeSlot_other _ _ _ _ (by omega) (by omega) (by omega)
    · simp only [if_neg hreg]

theorem flexApplyLoop_sets (flexv : Nat) :
    ∀ fuel i regs s, i ≤ s → s < i + fuel →
      flexSubfield ((flexApplyLoop flexv fuel i regs) (s / 4)) (s % 4) =
        flexv &&& 0xFF := by
  intro fuel
  induction fuel with
  | zero => intro i regs s h1 h2; omega
  | succ n ih =>
    intro i regs s h1 h2
    rw [flexApplyLoop]
    rcases Nat.eq_or_lt_of_le h1 with heq | hlt
    · subst heq
      rw [flexApplyLoop_preserve flexv n (i + 1) _ i (by omega)]
      simp only [if_pos rfl]
      exact flexSubfield_writeSlot_same _ _ _ (by omega)
    · exact ih (i + 1) _ s hlt (by omega)

/-! ### IPv6 address-mask codec lemmas -/

theorem ipv6AddrToMaskGo_ok (a : Nat → Nat) :
    ∀ fuel i m, (∀ k, i ≤ k → k < i + fuel → a k = 0 ∨ a k = 255) →
      ∃ M, ipv6AddrToMaskGo a fuel i m = Except.ok M ∧
        ∀ j, M.testBit j =
          (m.testBit j || decide (i ≤ j ∧ j < i + fuel ∧ a j = 255)) := by
  intro fuel
  induction fuel with
  | zero =>
    intro i m _
    refine ⟨m, rfl, fun j => ?_⟩
    have hd : decide (i ≤ j ∧ j < i + 0 ∧ a j = 255) = false :=
      decide_eq_false (by omega)
    rw [hd, Bool.or_false]
  | succ n ih =>
    intro i m h
    rcases h i le_rfl (by omega) with h0 | h255
    · rw [ipv6AddrToMaskGo]
      rw [if_neg (by omega), if_neg (by simp [h0])]
      obtain ⟨M, hM, hbits⟩ := ih (i + 1) m (fun k hk1 hk2 => h k (by omega) (by omega))
      refine ⟨M, hM, fun j => ?_⟩
      rw [hbits j]
      congr 1
      rcases eq_or_ne j i with heq | hne
      · subst heq
        rw [decide_eq_false (by omega), decide_eq_false (by omega)]
      · by_cases hin : i ≤ j ∧ j < i + (n + 1) ∧ a j = 255
        · rw [decide_eq_true hin, decide_eq_true (by omega)]
        · rw [decide_eq_false hin, decide_eq_false (by omega)]
    · rw [ipv6AddrToMaskGo, if_pos h255]
      obtain ⟨M, hM, hbits⟩ :=
        ih (i + 1) (m ||| (1 <<< i)) (fun k hk1 hk2 => h k (by omega) (by omega))
      refine ⟨M, hM, fun j => ?_⟩
      rw [hbits j, Nat.testBit_or, Nat.one_shiftLeft, Nat.testBit_two_pow]
      by_cases hji : j = i
      · rw [decide_eq_true hji.symm, decide_eq_false (by omega),
          decide_eq_true (show i ≤ j ∧ j < i + (n + 1) ∧ a j = 255 from
            ⟨by omega, by omega, hji ▸ h255⟩)]
        simp
      · rw [decide_eq_false (by omega)]
        by_cases hB : i ≤ j ∧ j < i + (n + 1) ∧ a j = 255
        · rw [decide_eq_true hB,
            decide_eq_true (show i + 1 ≤ j ∧ j < i + 1 + n ∧ a j = 255 from
              ⟨by omega, by omega, hB.2.2⟩)]
          simp
        · rw [decide_eq_false hB,
            decide_eq_false (show ¬(i + 1 ≤ j ∧ j < i + 1 + n ∧ a j = 255) from
              fun hA => hB ⟨by omega, by omega, hA.2.2⟩)]
          simp
  
theorem ipv6AddrToMaskGo_error_iff (a : Nat → Nat) :
    ∀ fuel i m, ipv6AddrToMaskGo a fuel i m = Except.error (-EINVAL) ↔
      ∃ k, i ≤ k ∧ k < i + fuel ∧ a k ≠ 0 ∧ a k ≠ 255 := by
  intro fuel
  induction fuel with
  | zero =>
    intro i m
    constructor
    · intro h; exact absurd h (by simp [ipv6AddrToMaskGo])
    · intro ⟨k, h1, h2, _⟩; omega
  | succ n ih =>
    intro i m
    rw [ipv6AddrToMaskGo]
    by_cases h255 : a i = 255
    · rw [if_pos h255, ih (i + 1)]
      constructor
      · intro ⟨k, h1, h2, h3⟩; exact ⟨k, by omega, by omega, h3⟩
      · intro ⟨k, h1, h2, h3, h4⟩
        refine ⟨k, ?_, by omega, h3, h4⟩
        rcases Nat.eq_or_lt_of_le h1 with heq | hlt
        · exact absurd (heq ▸ h255) h4
        · omega
    · rw [if_neg h255]
      by_cases h0 : a i = 0
      · rw [if_neg (by simp [h0]), ih (i + 1)]
        constructor
        · intro ⟨k, h1, h2, h3⟩; exact ⟨k, by omega, by omega, h3⟩
        · intro ⟨k, h1, h2, h3, h4⟩
          refine ⟨k, ?_, by omega, h3, h4⟩
          rcases Nat.eq_or_lt_of_le h1 with heq | hlt
          · exact absurd (heq ▸ h0) h3
          · omega
      · rw [if_pos (by simp [h0])]
        simp only [true_iff]
        exact ⟨i, le_rfl, by omega, h0, h255⟩

theorem IPV6_ADDR_TO_MASK_ok_testBit (a : Nat → Nat)
    (h : ∀ i < 16, a i = 0 ∨ a i = 255) :
    ∃ M, IPV6_ADDR_TO_MASK a = Except.ok M ∧
      ∀ j, M.testBit j = decide (j < 16 ∧ a j = 255) := by
  obtain ⟨M, hM, hbits⟩ :=
    ipv6AddrToMaskGo_ok a 16 0 0 (fun k _ hk => h k (by omega))
  refine ⟨M, hM, fun j => ?_⟩
  rw [hbits j, Nat.zero_testBit, Bool.false_or]
  by_cases hj : j < 16 ∧ a j = 255
  · rw [decide_eq_true hj, decide_eq_true ⟨by omega, by omega, hj.2⟩]
  · rw [decide_eq_false hj, decide_eq_false (fun hc => hj ⟨by omega, hc.2.2⟩)]

theorem IPV6_ADDR_TO_MASK_error_iff (a : Nat → Nat) :
    IPV6_ADDR_TO_MASK a = Except.error (-EINVAL) ↔
      ∃ k < 16, a k ≠ 0 ∧ a k ≠ 255 := by
  rw [IPV6_ADDR_TO_MASK, ipv6AddrToMaskGo_error_iff a 16 0 0]
  constructor
  · intro ⟨k, _, h2, h3⟩; exact ⟨k, by omega, h3⟩
  · intro ⟨k, h1, h2⟩; exact ⟨k, by omega, by omega, h2⟩

theorem and_one_shiftLeft_ne_zero (m i : Nat) :
    m &&& (1 <<< i) ≠ 0 ↔ m.testBit i = true := by
  rw [Nat.one_shiftLeft, Nat.and_two_pow]
  cases h : m.testBit i <;> simp [h]

/-! ### Flex payload-loop lemmas -/

theorem flex_ofst_rewrite_idem (f v w : Nat) :
    (((f &&& NOT32 TXGBE_FDIRFLEXCFG_OFST_MASK) ||| TXGBE_FDIRFLEXCFG_OFST v) &&&
        NOT32 TXGBE_FDIRFLEXCFG_OFST_MASK) ||| TXGBE_FDIRFLEXCFG_OFST w =
      (f &&& NOT32 TXGBE_FDIRFLEXCFG_OFST_MASK) ||| TXGBE_FDIRFLEXCFG_OFST w := by
  congr 1
  apply Nat.eq_of_testBit_eq
  intro j
  by_cases hj : j < 32
  · interval_cases j <;>
      simp only [TXGBE_FDIRFLEXCFG_OFST, TXGBE_FDIRFLEXCFG_OFST_MASK, NOT32,
        Nat.testBit_or, Nat.testBit_and, Nat.testBit_xor, Nat.testBit_shiftLeft,
        Nat.testBit_shiftRight] <;>
      simp [Nat.testBit_to_div_mod]
  · have hN : NOT32 TXGBE_FDIRFLEXCFG_OFST_MASK < 2 ^ 32 := by
      rw [NOT32, TXGBE_FDIRFLEXCFG_OFST_MASK]; decide
    have h1 : (NOT32 TXGBE_FDIRFLEXCFG_OFST_MASK).testBit j = false :=
      testBit_ge32_of_lt _ _ hN (le_of_not_lt hj)
    rw [Nat.testBit_and, Nat.testBit_and, h1]
    simp

theorem flex_ofst_rewrite_testBit2 (f v : Nat) :
    ((f &&& NOT32 TXGBE_FDIRFLEXCFG_OFST_MASK) |||
      TXGBE_FDIRFLEXCFG_OFST v).testBit 2 = f.testBit 2 := by
  simp only [TXGBE_FDIRFLEXCFG_OFST, TXGBE_FDIRFLEXCFG_OFST_MASK, NOT32,
    Nat.testBit_or, Nat.testBit_and, Nat.testBit_xor, Nat.testBit_shiftLeft,
    Nat.testBit_shiftRight]
  simp [Nat.testBit_to_div_mod]

theorem flexPayloadLoop_ok (ps : List rte_eth_flex_payload_cfg)
    (h : ∀ p ∈ ps, flexPayloadValid p) :
    ∀ flex, ∃ f, flexPayloadLoop ps flex = Except.ok f ∧
      f.testBit 2 = flex.testBit 2 := by
  induction ps with
  | nil => intro flex; exact ⟨flex, rfl, rfl⟩
  | cons c rest ih =>
    intro flex
    have hc := h c (List.mem_cons_self c rest)
    obtain ⟨h1, h2, h3, h4⟩ := hc
    rw [flexPayloadLoop]
    rw [if_neg (by simp [h1]), if_pos ⟨h2, h3, h4⟩]
    obtain ⟨f, hf, hbit⟩ :=
      ih (fun p hp => h p (List.mem_cons_of_mem c hp))
        ((flex &&& NOT32 TXGBE_FDIRFLEXCFG_OFST_MASK) |||
          TXGBE_FDIRFLEXCFG_OFST (c.src_offset0 / 2))
    exact ⟨f, hf, by rw [hbit, flex_ofst_rewrite_testBit2]⟩

/-! ### Claim theorems -/

/-- Claim C3 (counterexample): the address mask whose bytes are
`00 FF 00 ... 00` has a nonzero byte after a zero byte, yet
`IPV6_ADDR_TO_MASK` accepts it (yielding compact mask 2) instead of failing:
the macro checks only that each byte is 0x00 or 0xFF and never enforces the
claimed contiguous-prefix shape. -/
theorem ipv6_gap_mask_accepted :
    (fun i => if i = 1 then 255 else 0 : Nat → Nat) 0 = 0 ∧
    (fun i => if i = 1 then 255 else 0 : Nat → Nat) 1 ≠ 0 ∧
    IPV6_ADDR_TO_MASK (fun i => if i = 1 then 255 else 0) = Except.ok 2 :=
  ⟨rfl, by decide, rfl⟩

/-- Claim C3 (amended): `IPV6_ADDR_TO_MASK` fails with `-EINVAL` exactly when
some byte of the 16-byte mask is neither 0x00 nor 0xFF; masks made only of
0x00/0xFF bytes are accepted in any arrangement (no contiguity check). -/
theorem ipv6_addr_mask_rejects_iff_bad_byte (a : Nat → Nat) :
    IPV6_ADDR_TO_MASK a = Except.error (-EINVAL) ↔
      ∃ k < 16, a k ≠ 0 ∧ a k ≠ 255 :=
  IPV6_ADDR_TO_MASK_error_iff a

/-- Claim C3 (witness): the all-sevens mask is rejected with `-EINVAL`. -/
theorem ipv6_addr_mask_rejects_iff_bad_byte_witness :
    IPV6_ADDR_TO_MASK (fun _ => 7) = Except.error (-EINVAL) :=
  (ipv6_addr_mask_rejects_iff_bad_byte (fun _ => 7)).mpr
    ⟨0, by norm_num, by norm_num, by norm_num⟩

/-- Claim C6: for every 16-byte address mask whose bytes are each exactly
0x00 or 0xFF, `IPV6_ADDR_TO_MASK` succeeds and `IPV6_MASK_TO_ADDR` applied to
the resulting compact mask reproduces all 16 original bytes. -/
theorem ipv6_mask_roundtrip (a : Nat → Nat)
    (h : ∀ i < 16, a i = 0 ∨ a i = 255) :
    ∃ M, IPV6_ADDR_TO_MASK a = Except.ok M ∧
      ∀ i < 16, IPV6_MASK_TO_ADDR M i = a i := by
  obtain ⟨M, hM, hbits⟩ := IPV6_ADDR_TO_MASK_ok_testBit a h
  refine ⟨M, hM, fun i hi => ?_⟩
  rw [IPV6_MASK_TO_ADDR]
  by_cases hset : M &&& (1 <<< i) ≠ 0
  · rw [if_pos hset]
    have ht := (and_one_shiftLeft_ne_zero M i).mp hset
    rw [hbits i] at ht
    exact (of_decide_eq_true ht).2.symm
  · rw [if_neg hset]
    have hf : M.testBit i = false := by
      cases hb : M.testBit i
      · rfl
      · exact absurd ((and_one_shiftLeft_ne_zero M i).mpr hb) hset
    rw [hbits i] at hf
    have : ¬(i < 16 ∧ a i = 255) := of_decide_eq_false hf
    rcases h i hi with h0 | h255
    · exact h0.symm
    · exact absurd ⟨hi, h255⟩ this

/-- Claim C6 (witness): round trip at the /32-style mask `FF FF FF FF 00 …`. -/
theorem ipv6_mask_roundtrip_witness :
    ∃ M, IPV6_ADDR_TO_MASK (fun i => if i < 4 then 255 else 0) = Except.ok M ∧
      ∀ i < 16, IPV6_MASK_TO_ADDR M i =
        (fun i => if i < 4 then 255 else 0 : Nat → Nat) i :=
  ipv6_mask_roundtrip _ (by decide)

/-- Claim C7 (counterexample): the parallel-swap step of `reverse_fdir_bmks`
does not map bit 0 to bit 31 as claimed: it reverses each 16-bit half
separately, so `revStep 1 = 0x8000` (bit 0 maps to bit 15), which differs
from `0x80000000`. -/
theorem revStep_bit0_to_bit15 :
    revStep 1 = 0x8000 ∧ revStep 1 ≠ 0x80000000 := by decide

/-- Claim C7 (amended): the parallel-swap bit-reversal step of
`reverse_fdir_bmks` is an involution on 32-bit values (it reverses the bit
order within each 16-bit half, bit 0 mapping to bit 15 and back, not to
bit 31): applying the step twice returns the original value. -/
theorem revStep_involution (m : Nat) (hm : m < 2 ^ 32) :
    revStep (revStep m) = m :=
  revStep_involution_aux m hm

/-- Claim C7 (witness): the involution evaluated at 0x12345678. -/
theorem revStep_involution_witness :
    revStep (revStep 0x12345678) = 0x12345678 :=
  revStep_involution 0x12345678 (by norm_num)

/-- Claim C2 (counterexample): a failing `txgbe_fdir_store_input_mask` call
(malformed IPv6 source mask, first byte 0x01) does not leave `info->mask` at
its previous values: the call fails with `-EINVAL` yet the stored mask has
been zeroed and partially overwritten with the new VLAN/port/IPv4 values. -/
theorem store_input_mask_not_retained :
    (txgbe_fdir_store_input_mask RTE_FDIR_MODE_SIGNATURE
        ⟨7, 7, 7, (fun i => if i = 0 then 1 else 0), (fun _ => 0), 7, 7⟩
        ⟨9, 9, 9, 9, 9, 9, 9, 9⟩).1 = -EINVAL ∧
    (txgbe_fdir_store_input_mask RTE_FDIR_MODE_SIGNATURE
        ⟨7, 7, 7, (fun i => if i = 0 then 1 else 0), (fun _ => 0), 7, 7⟩
        ⟨9, 9, 9, 9, 9, 9, 9, 9⟩).2 ≠ ⟨9, 9, 9, 9, 9, 9, 9, 9⟩ := by
  constructor
  · rfl
  · decide

/-- Claim C2 (amended): `txgbe_fdir_store_input_mask` leaves `info->mask`
untouched when the mode check fails, but when `IPV6_ADDR_TO_MASK` rejects the
IPv6 source mask the call returns its error after `info->mask` has already
been zeroed and overwritten with the new VLAN/port/IPv4 masks (the compact
IPv6 and flex masks left zero) — the previous values are not retained. -/
theorem store_input_mask_fail_partial (mode : Nat) (input : rte_eth_fdir_masks)
    (old : txgbe_hw_fdir_mask) (e : Int)
    (hmode : mode = RTE_FDIR_MODE_SIGNATURE ∨ mode = RTE_FDIR_MODE_PERFECT)
    (hsrc : IPV6_ADDR_TO_MASK input.ipv6_src_ip = Except.error e) :
    txgbe_fdir_store_input_mask mode input old =
      (e, { vlan_tci_mask := input.vlan_tci_mask
            src_ipv4_mask := input.ipv4_src_ip
            dst_ipv4_mask := input.ipv4_dst_ip
            src_ipv6_mask := 0
            dst_ipv6_mask := 0
            src_port_mask := input.src_port_mask
            dst_port_mask := input.dst_port_mask
            flex_bytes_mask := 0 }) := by
  rw [txgbe_fdir_store_input_mask,
    if_neg (by
      rcases hmode with h | h <;>
        simp [h, RTE_FDIR_MODE_SIGNATURE, RTE_FDIR_MODE_PERFECT]),
    hsrc]

/-- Claim C2 (witness): the amended behaviour at a concrete failing input. -/
theorem store_input_mask_fail_partial_witness :
    txgbe_fdir_store_input_mask RTE_FDIR_MODE_SIGNATURE
        ⟨7, 7, 7, (fun i => if i = 0 then 1 else 0), (fun _ => 0), 7, 7⟩
        ⟨9, 9, 9, 9, 9, 9, 9, 9⟩ = (-EINVAL, ⟨7, 7, 7, 0, 0, 7, 7, 0⟩) :=
  store_input_mask_fail_partial RTE_FDIR_MODE_SIGNATURE
    ⟨7, 7, 7, (fun i => if i = 0 then 1 else 0), (fun _ => 0), 7, 7⟩
    ⟨9, 9, 9, 9, 9, 9, 9, 9⟩ (-EINVAL) (Or.inl rfl) rfl

/-- Claim C4: for destination port mask 0xFFFF and source port mask 0x0000,
the value written to the TCP port-mask register (the complement of the
bit-reversed concatenation) is exactly the literal 0x0000FFFF. -/
theorem fdir_tcpmsk_literal (mask : txgbe_hw_fdir_mask)
    (hd : mask.dst_port_mask = 0xFFFF) (hs : mask.src_port_mask = 0) :
    ∃ w, txgbe_fdir_set_input_mask RTE_FDIR_MODE_SIGNATURE mask = Except.ok w ∧
      w.fdirtcpm_wr = 0x0000FFFF := by
  rw [txgbe_fdir_set_input_mask, if_neg (by
    simp [RTE_FDIR_MODE_SIGNATURE, RTE_FDIR_MODE_PERFECT])]
  refine ⟨_, rfl, ?_⟩
  simp only [hd, hs]
  rfl

/-- Claim C4 (witness): the literal at a fully concrete mask. -/
theorem fdir_tcpmsk_literal_witness :
    ∃ w, txgbe_fdir_set_input_mask RTE_FDIR_MODE_SIGNATURE
        ⟨0, 0, 0, 0, 0, 0, 0xFFFF, 0⟩ = Except.ok w ∧
      w.fdirtcpm_wr = 0x0000FFFF :=
  fdir_tcpmsk_literal ⟨0, 0, 0, 0, 0, 0, 0xFFFF, 0⟩ rfl rfl

/-- Claim C8: in `txgbe_fdir_set_input_mask`, the value written to the
field-mask register contains the `TXGBE_FDIRMSK_L4P` protocol-substitution
flag if and only if both stored port masks are zero. -/
theorem fdirm_l4p_iff (mask : txgbe_hw_fdir_mask) :
    ∃ w, txgbe_fdir_set_input_mask RTE_FDIR_MODE_SIGNATURE mask = Except.ok w ∧
      (w.fdirm &&& TXGBE_FDIRMSK_L4P ≠ 0 ↔
        mask.dst_port_mask = 0 ∧ mask.src_port_mask = 0) := by
  rw [txgbe_fdir_set_input_mask, if_neg (by
    simp [RTE_FDIR_MODE_SIGNATURE, RTE_FDIR_MODE_PERFECT])]
  refine ⟨_, rfl, ?_⟩
  by_cases h : mask.dst_port_mask = 0 ∧ mask.src_port_mask = 0
  · simp only [if_pos h]
    constructor
    · intro _; exact h
    · intro _; decide
  · simp only [if_neg h]
    constructor
    · intro hc
      exact absurd (by decide : TXGBE_FDIRMSK_POOL &&& TXGBE_FDIRMSK_L4P = 0) hc
    · intro hh; exact absurd hh h

/-- Claim C8 (witness): both flag polarities at concrete masks. -/
theorem fdirm_l4p_iff_witness :
    (∃ w, txgbe_fdir_set_input_mask RTE_FDIR_MODE_SIGNATURE
        ⟨0, 0, 0, 0, 0, 0, 0, 0⟩ = Except.ok w ∧
      (w.fdirm &&& TXGBE_FDIRMSK_L4P ≠ 0 ↔ (0 : Nat) = 0 ∧ (0 : Nat) = 0)) ∧
    (∃ w, txgbe_fdir_set_input_mask RTE_FDIR_MODE_SIGNATURE
        ⟨0, 0, 0, 0, 0, 5, 0, 0⟩ = Except.ok w ∧
      (w.fdirm &&& TXGBE_FDIRMSK_L4P ≠ 0 ↔ (0 : Nat) = 0 ∧ (5 : Nat) = 0)) :=
  ⟨fdirm_l4p_iff ⟨0, 0, 0, 0, 0, 0, 0, 0⟩, fdirm_l4p_iff ⟨0, 0, 0, 0, 0, 5, 0, 0⟩⟩

/-- Claim C5: `txgbe_fdir_enable` returns `-ETIMEDOUT` if and only if the
init-done bit is not observed in any of the `TXGBE_FDIR_INIT_DONE_POLL`
polls; and when the bit is first observed on poll `k` (k below the bound),
the call succeeds having performed exactly `k + 1` poll reads (no further
polls after `k`). -/
theorem fdir_enable_timeout_iff (reads : Nat → Nat) (fdirctrl : Nat) :
    ((txgbe_fdir_enable reads fdirctrl).1 = -ETIMEDOUT ↔
      ∀ k < TXGBE_FDIR_INIT_DONE_POLL,
        reads k &&& TXGBE_FDIRCTL_INITDONE = 0) ∧
    ∀ k < TXGBE_FDIR_INIT_DONE_POLL,
      (∀ j < k, reads j &&& TXGBE_FDIRCTL_INITDONE = 0) →
      reads k &&& TXGBE_FDIRCTL_INITDONE ≠ 0 →
      (txgbe_fdir_enable reads fdirctrl).1 = 0 ∧
        (txgbe_fdir_enable reads fdirctrl).2 = k + 1 := by
  have hle := fdirPollInitDone_le reads TXGBE_FDIR_INIT_DONE_POLL 0
  have h1 : (txgbe_fdir_enable reads fdirctrl).1 =
      if TXGBE_FDIR_INIT_DONE_POLL ≤
          fdirPollInitDone reads TXGBE_FDIR_INIT_DONE_POLL 0
      then -ETIMEDOUT else 0 := rfl
  have h2 : (txgbe_fdir_enable reads fdirctrl).2 =
      if fdirPollInitDone reads TXGBE_FDIR_INIT_DONE_POLL 0 <
          TXGBE_FDIR_INIT_DONE_POLL
      then fdirPollInitDone reads TXGBE_FDIR_INIT_DONE_POLL 0 + 1
      else TXGBE_FDIR_INIT_DONE_POLL := rfl
  constructor
  · rw [h1]
    by_cases hb : TXGBE_FDIR_INIT_DONE_POLL ≤
        fdirPollInitDone reads TXGBE_FDIR_INIT_DONE_POLL 0
    · rw [if_pos hb]
      constructor
      · intro _ k hk
        exact (fdirPollInitDone_exhaust_iff reads
          TXGBE_FDIR_INIT_DONE_POLL 0).mp (by omega) k (by omega) (by omega)
      · intro _; rfl
    · rw [if_neg hb]
      constructor
      · intro h; exact absurd h (by norm_num [ETIMEDOUT])
      · intro h
        have heq := (fdirPollInitDone_exhaust_iff reads
          TXGBE_FDIR_INIT_DONE_POLL 0).mpr (fun k hk1 hk2 => h k (by omega))
        omega
  · intro k hk hclear hset
    have hfound := fdirPollInitDone_found reads TXGBE_FDIR_INIT_DONE_POLL 0 k
      (Nat.zero_le _) (by omega) (fun j _ hj => hclear j hj) hset
    rw [h1, h2, hfound, if_neg (by omega), if_pos (by omega)]
    exact ⟨rfl, rfl⟩

/-- Claim C5 (witness): the bit first observed on poll 3 gives success after
exactly 4 poll reads. -/
theorem fdir_enable_timeout_iff_witness :
    (txgbe_fdir_enable (fun k => if k = 3 then 8 else 0) 0).1 = 0 ∧
      (txgbe_fdir_enable (fun k => if k = 3 then 8 else 0) 0).2 = 3 + 1 :=
  (fdir_enable_timeout_iff (fun k => if k = 3 then 8 else 0) 0).2 3
    (by norm_num [TXGBE_FDIR_INIT_DONE_POLL]) (by decide) (by decide)

/-- Claim C9: `txgbe_fdir_set_flexbytes_offset` returns 0 for every offset
and every hardware behaviour; in particular, even when the init-done bit is
never observed and the poll loop exhausts all `TXGBE_FDIR_INIT_DONE_POLL`
iterations, the timeout is silently swallowed and the function still
returns 0. -/
theorem set_flexbytes_offset_always_ok (ctl_reads regs : Nat → Nat)
    (offset : Nat) :
    (txgbe_fdir_set_flexbytes_offset ctl_reads regs offset).ret = 0 ∧
    ((∀ k < TXGBE_FDIR_INIT_DONE_POLL,
        ctl_reads k &&& TXGBE_FDIRCTL_INITDONE = 0) →
      (txgbe_fdir_set_flexbytes_offset ctl_reads regs offset).ctl_polls =
          TXGBE_FDIR_INIT_DONE_POLL ∧
        (txgbe_fdir_set_flexbytes_offset ctl_reads regs offset).ret = 0) := by
  have h2 : (txgbe_fdir_set_flexbytes_offset ctl_reads regs offset).ctl_polls =
      if fdirPollInitDone ctl_reads TXGBE_FDIR_INIT_DONE_POLL 0 <
          TXGBE_FDIR_INIT_DONE_POLL
      then fdirPollInitDone ctl_reads TXGBE_FDIR_INIT_DONE_POLL 0 + 1
      else TXGBE_FDIR_INIT_DONE_POLL := rfl
  refine ⟨rfl, fun h => ⟨?_, rfl⟩⟩
  have heq := (fdirPollInitDone_exhaust_iff ctl_reads
    TXGBE_FDIR_INIT_DONE_POLL 0).mpr (fun k hk1 hk2 => h k (by omega))
  rw [h2, heq, if_neg (by omega)]

/-- Claim C9 (witness): the poll-exhausting case at a concrete offset. -/
theorem set_flexbytes_offset_always_ok_witness :
    (txgbe_fdir_set_flexbytes_offset (fun _ => 0) (fun _ => 0) 12).ret = 0 ∧
      (txgbe_fdir_set_flexbytes_offset (fun _ => 0) (fun _ => 0) 12).ctl_polls =
        TXGBE_FDIR_INIT_DONE_POLL :=
  ⟨(set_flexbytes_offset_always_ok (fun _ => 0) (fun _ => 0) 12).1,
   ((set_flexbytes_offset_always_ok (fun _ => 0) (fun _ => 0) 12).2
     (by decide)).1⟩

/-- Claim C1 (counterexample): a flex configuration submitting two payload
descriptors with two different individually-valid window offsets (0 and 2)
does not fail: `txgbe_set_fdir_flex_conf` returns 0 (success), because the
payload loop simply lets each descriptor overwrite the offset field. -/
theorem flex_conf_two_distinct_offsets_succeeds :
    (txgbe_set_fdir_flex_conf
        ⟨[⟨RTE_ETH_RAW_PAYLOAD, 0, 1⟩, ⟨RTE_ETH_RAW_PAYLOAD, 2, 3⟩], []⟩ 0
        ⟨0, 0, fun _ => 0⟩).1 = 0 := rfl

/-- Claim C1 (amended): submitting two individually-valid payload-window
descriptors never fails, whatever their offsets: the configuration result is
exactly that of submitting the second (last) descriptor alone — the last
offset wins.  In particular, submitting the same valid offset twice succeeds
and equals submitting it once (the idempotent half of the original claim). -/
theorem flex_conf_last_offset_wins (p q : rte_eth_flex_payload_cfg)
    (fms : List rte_eth_fdir_flex_mask) (flex0 : Nat) (st0 : FlexConfState)
    (hp : flexPayloadValid p) (hq : flexPayloadValid q) :
    txgbe_set_fdir_flex_conf ⟨[p, q], fms⟩ flex0 st0 =
      txgbe_set_fdir_flex_conf ⟨[q], fms⟩ flex0 st0 := by
  have step : ∀ (c : rte_eth_flex_payload_cfg) rest flex, flexPayloadValid c →
      flexPayloadLoop (c :: rest) flex = flexPayloadLoop rest
        ((flex &&& NOT32 TXGBE_FDIRFLEXCFG_OFST_MASK) |||
          TXGBE_FDIRFLEXCFG_OFST (c.src_offset0 / 2)) := by
    intro c rest flex hc
    obtain ⟨h1, h2, h3, h4⟩ := hc
    rw [flexPayloadLoop, if_neg (by simp [h1]), if_pos ⟨h2, h3, h4⟩]
  have key : ∀ flex, flexPayloadLoop [p, q] flex = flexPayloadLoop [q] flex := by
    intro flex
    rw [step p [q] flex hp, step q [] _ hq, step q [] _ hq,
      flex_ofst_rewrite_idem]
  show (match flexPayloadLoop [p, q] (flex0 ||| TXGBE_FDIRFLEXCFG_DIA) with
    | Except.error e => (e, st0)
    | Except.ok flex =>
      match flexMaskLoop fms flex 0 with
      | Except.error e => (e, st0)
      | Except.ok (flex, flexbytes) =>
        (0, { flex_bytes_mask := if flexbytes ≠ 0 then 0xFFFF else 0
              flex_bytes_offset := (TXGBD_FDIRFLEXCFG_OFST flex * 2) &&& 0xFF
              regs := flexApplyLoop flex 64 0 st0.regs })) =
    (match flexPayloadLoop [q] (flex0 ||| TXGBE_FDIRFLEXCFG_DIA) with
    | Except.error e => (e, st0)
    | Except.ok flex =>
      match flexMaskLoop fms flex 0 with
      | Except.error e => (e, st0)
      | Except.ok (flex, flexbytes) =>
        (0, { flex_bytes_mask := if flexbytes ≠ 0 then 0xFFFF else 0
              flex_bytes_offset := (TXGBD_FDIRFLEXCFG_OFST flex * 2) &&& 0xFF
              regs := flexApplyLoop flex 64 0 st0.regs }))
  rw [key]

/-- Claim C1 (witness): the last-offset-wins equality at two concrete valid
descriptors with distinct offsets 0 and 2. -/
theorem flex_conf_last_offset_wins_witness :
    txgbe_set_fdir_flex_conf
        ⟨[⟨RTE_ETH_RAW_PAYLOAD, 0, 1⟩, ⟨RTE_ETH_RAW_PAYLOAD, 2, 3⟩], []⟩ 0
        ⟨0, 0, fun _ => 0⟩ =
      txgbe_set_fdir_flex_conf ⟨[⟨RTE_ETH_RAW_PAYLOAD, 2, 3⟩], []⟩ 0
        ⟨0, 0, fun _ => 0⟩ :=
  flex_conf_last_offset_wins ⟨RTE_ETH_RAW_PAYLOAD, 0, 1⟩
    ⟨RTE_ETH_RAW_PAYLOAD, 2, 3⟩ [] 0 ⟨0, 0, fun _ => 0⟩ (by decide) (by decide)

/-- Claim C10: with zero flex-mask descriptors and only valid payload
descriptors, `txgbe_set_fdir_flex_conf` succeeds, stores
`flex_bytes_mask = 0`, and writes every one of the 64 classification-profile
sub-field slots with the ignore (`TXGBE_FDIRFLEXCFG_DIA`) bit set. -/
theorem flex_conf_no_masks_dia (conf : rte_eth_fdir_flex_conf) (flex0 : Nat)
    (st0 : FlexConfState)
    (hmask : conf.flex_mask = [])
    (hps : ∀ p ∈ conf.flex_set, flexPayloadValid p) :
    (txgbe_set_fdir_flex_conf conf flex0 st0).1 = 0 ∧
    ((txgbe_set_fdir_flex_conf conf flex0 st0).2).flex_bytes_mask = 0 ∧
    ∀ i < 64,
      flexSubfield (((txgbe_set_fdir_flex_conf conf flex0 st0).2).regs (i / 4))
          (i % 4) &&& TXGBE_FDIRFLEXCFG_DIA ≠ 0 := by
  obtain ⟨f, hf, hbit⟩ :=
    flexPayloadLoop_ok conf.flex_set hps (flex0 ||| TXGBE_FDIRFLEXCFG_DIA)
  have hbit2 : f.testBit 2 = true := by
    rw [hbit, Nat.testBit_or]
    have hdia : TXGBE_FDIRFLEXCFG_DIA.testBit 2 = true := by decide
    rw [hdia, Bool.or_true]
  have hres : txgbe_set_fdir_flex_conf conf flex0 st0 =
      (0, { flex_bytes_mask := 0
            flex_bytes_offset := (TXGBD_FDIRFLEXCFG_OFST f * 2) &&& 0xFF
            regs := flexApplyLoop f 64 0 st0.regs }) := by
    rw [txgbe_set_fdir_flex_conf, hf, hmask]
    rfl
  rw [hres]
  refine ⟨rfl, rfl, ?_⟩
  intro i hi
  have hsub := flexApplyLoop_sets f 64 0 st0.regs i (Nat.zero_le _) (by omega)
  show flexSubfield (flexApplyLoop f 64 0 st0.regs (i / 4)) (i % 4) &&&
      TXGBE_FDIRFLEXCFG_DIA ≠ 0
  rw [hsub]
  intro hc
  have hzero : ((f &&& 0xFF) &&& TXGBE_FDIRFLEXCFG_DIA).testBit 2 = false := by
    rw [hc]; exact Nat.zero_testBit 2
  rw [Nat.testBit_and, Nat.testBit_and, hbit2] at hzero
  revert hzero
  decide

/-- Claim C10 (witness): success, zero flex mask, and the DIA bit present in
all 64 slots, at a concrete configuration with one valid payload descriptor
and no flex-mask descriptors. -/
theorem flex_conf_no_masks_dia_witness :
    (txgbe_set_fdir_flex_conf ⟨[⟨RTE_ETH_RAW_PAYLOAD, 0, 1⟩], []⟩ 0
        ⟨0, 0, fun _ => 0⟩).1 = 0 ∧
    ((txgbe_set_fdir_flex_conf ⟨[⟨RTE_ETH_RAW_PAYLOAD, 0, 1⟩], []⟩ 0
        ⟨0, 0, fun _ => 0⟩).2).flex_bytes_mask = 0 ∧
    ∀ i < 64,
      flexSubfield (((txgbe_set_fdir_flex_conf
            ⟨[⟨RTE_ETH_RAW_PAYLOAD, 0, 1⟩], []⟩ 0
            ⟨0, 0, fun _ => 0⟩).2).regs (i / 4))
          (i % 4) &&& TXGBE_FDIRFLEXCFG_DIA ≠ 0 :=
  flex_conf_no_masks_dia ⟨[⟨RTE_ETH_RAW_PAYLOAD, 0, 1⟩], []⟩ 0
    ⟨0, 0, fun _ => 0⟩ rfl (by decide)
